import Mathlib

/-!
A shallow embedding of the LDAP entry-synchronizer model layer
(`ldapdb/models/base.py`): DN/RDN construction (`build_rdn`, `build_dn`),
the diff-based `save` engine (create / update / rename paths), `delete`,
and the `scoped` base-DN variant factory.

Python values held by model fields are embedded as `Option String`:
`none` plays the role of Python `None`, `some ""` of the empty string;
Python truthiness of such a value is `truthy`.  The external directory
client is a parameter `conn : DirCall → Bool` deciding whether each call
succeeds; the field codec (`get_db_prep_save`) is a parameter
`encode`; the point lookup `objects.get(pk=...)` is a parameter `fetch`.
`save` and `delete` return the ordered trace of directory calls and
signal emissions together with the resulting in-memory state (or the
state at which an exception propagates).
-/

namespace Ldapdb

/-- A Python value as held by a model field: `none` is Python `None`. -/
abbrev Value := Option String

/-- Python truthiness of a field value (`if value:`). -/
def truthy : Value → Bool
  | none => false
  | some s => s != ""

/-- Python `"%s" % value` formatting of a field value. -/
def valToStr : Value → String
  | none => "None"
  | some s => s

/-- Truthiness of a `db_column` (`if not field.db_column: continue`). -/
def dbColTruthy : Option String → Bool
  | none => false
  | some s => s != ""

/-- One declared field from `self._meta.fields`: its attribute name,
its LDAP column mapping (`db_column`, `none` when unmapped) and its
`primary_key` flag. -/
structure FieldDesc where
  name : String
  db_column : Option String
  primary_key : Bool
deriving DecidableEq, Repr

/-- The `db_column` of a mapped field. -/
def colOf (f : FieldDesc) : String := f.db_column.getD ""

/-- Class-level metadata of a model: declared fields in declaration
order, `base_dn` and `object_classes`. -/
structure ModelClass where
  fields : List FieldDesc
  base_dn : String
  object_classes : List String
deriving DecidableEq, Repr

/-- An in-memory model instance: its `dn`, the `saved_pk` snapshot and
the current field values (an association list over field names). -/
structure Inst where
  dn : String
  saved_pk : Value
  vals : List (String × Value)
deriving DecidableEq, Repr

/-- `getattr(self, name)` on a field value (missing attribute ↦ `none`,
matching `getattr(obj, name, None)`). -/
def getattr (i : Inst) (n : String) : Value :=
  (i.vals.lookup n).join

/-- `self.pk`: the value of the primary-key field. -/
def pkValue (cls : ModelClass) (i : Inst) : Value :=
  match cls.fields.find? (fun f => f.primary_key) with
  | some f => getattr i f.name
  | none => none

/-- The two failure modes of `build_rdn`: the `TypeError` raised when a
primary-key value is needed at class level (`missingKey`), and the
`Exception("Could not build Distinguished Name")` raised when no
`attr=value` bit was emitted (`emptyBits`).  The spec names both
`IdentityError`. -/
inductive RdnError where
  | missingKey
  | emptyBits
deriving DecidableEq, Repr

/-- The loop body of `Model.build_rdn`: walk `self._meta.fields` in
order, skip unmapped fields, emit `col=keys[name]` for overridden
fields, emit `col=getattr(self, name)` for the primary-key field when
an instance is available, and raise `TypeError` when the primary-key
value is needed but only the class is at hand. -/
def rdn_bits (inst : Option Inst) (keys : List (String × String)) :
    List FieldDesc → Except RdnError (List String)
  | [] => .ok []
  | f :: rest =>
    if dbColTruthy f.db_column then
      match keys.lookup f.name with
      | some v =>
        match rdn_bits inst keys rest with
        | .error e => .error e
        | .ok bs => .ok ((colOf f ++ "=" ++ v) :: bs)
      | none =>
        if f.primary_key then
          match inst with
          | none => .error .missingKey
          | some i =>
            match rdn_bits inst keys rest with
            | .error e => .error e
            | .ok bs => .ok ((colOf f ++ "=" ++ valToStr (getattr i f.name)) :: bs)
        else rdn_bits inst keys rest
    else rdn_bits inst keys rest

/-- `Model.build_rdn`: join the emitted bits with `+`; raise when the
bit list is empty. -/
def build_rdn (cls : ModelClass) (inst : Option Inst)
    (keys : List (String × String)) : Except RdnError String :=
  match rdn_bits inst keys cls.fields with
  | .error e => .error e
  | .ok bits =>
    if bits.isEmpty then .error .emptyBits
    else .ok (String.intercalate "+" bits)

/-- `Model.build_dn`: `"%s,%s" % (self.build_rdn(**keys), self.base_dn)`. -/
def build_dn (cls : ModelClass) (inst : Option Inst)
    (keys : List (String × String)) : Except RdnError String :=
  match build_rdn cls inst keys with
  | .error e => .error e
  | .ok rdn => .ok (rdn ++ "," ++ cls.base_dn)

/-- A wire-level attribute value passed to the directory client: a
single encoded value, or the list of object classes. -/
inductive AttrVal where
  | single (s : String)
  | multi (l : List String)
deriving DecidableEq, Repr

/-- An `ldap.MOD_REPLACE` / `ldap.MOD_DELETE` tag. -/
inductive ModType where
  | replace
  | delete
deriving DecidableEq, Repr

/-- One entry of the modlist handed to `modify_s`:
`(mod_op, db_column, value-or-None)`. -/
structure Mod where
  op : ModType
  attr : String
  value : Option AttrVal
deriving DecidableEq, Repr

/-- A call issued to the directory client. -/
inductive DirCall where
  | add (dn : String) (entry : List (String × AttrVal))
  | modify (dn : String) (mods : List Mod)
  | rename (dn : String) (newRdn : String)
  | del (dn : String)
deriving DecidableEq, Repr

/-- An observable event of a `save`/`delete` run: a directory call, a
`post_save` signal (with its `created` flag) or a `post_delete` signal. -/
inductive Event where
  | call (c : DirCall)
  | postSave (created : Bool)
  | postDelete
deriving DecidableEq, Repr

/-- The in-memory state in which a `save`/`delete` run ends: normal
return, a propagating directory-client error (`DirectoryOperationError`),
or a propagating DN-construction error (`IdentityError`). -/
inductive Outcome where
  | ok (self : Inst)
  | dirErr (self : Inst)
  | idErr (self : Inst)
deriving DecidableEq, Repr

/-- The attribute list built on the create path of `Model.save`:
`objectClass` first, then `(db_column, get_db_prep_save(value))` for
every mapped field whose current value is truthy. -/
def create_entry (cls : ModelClass) (encode : String → Value → AttrVal)
    (self : Inst) : List (String × AttrVal) :=
  ("objectClass", AttrVal.multi cls.object_classes) ::
    cls.fields.filterMap (fun f =>
      if dbColTruthy f.db_column then
        let value := getattr self f.name
        if truthy value then some (colOf f, encode (colOf f) value)
        else none
      else none)

/-- The modlist built on the update path of `Model.save`: per mapped
field, compare `getattr(orig, name, None)` with `getattr(self, name,
None)`; on change, `MOD_REPLACE` with the encoded new value when the
new value is truthy, else `MOD_DELETE` when the old value was truthy. -/
def update_modlist (cls : ModelClass) (encode : String → Value → AttrVal)
    (orig self : Inst) : List Mod :=
  cls.fields.filterMap (fun f =>
    if dbColTruthy f.db_column then
      let old_value := getattr orig f.name
      let new_value := getattr self f.name
      if old_value ≠ new_value then
        if truthy new_value then
          some ⟨ModType.replace, colOf f, some (encode (colOf f) new_value)⟩
        else if truthy old_value then
          some ⟨ModType.delete, colOf f, none⟩
        else none
      else none
    else none)

/-- The create branch of `Model.save` (taken when `self.dn` is empty):
build the entry, `add_s` at `build_dn()`, then set `dn`, refresh
`saved_pk` and send `post_save` with `created=True`. -/
def save_create (cls : ModelClass) (encode : String → Value → AttrVal)
    (conn : DirCall → Bool) (self : Inst) : List Event × Outcome :=
  match build_dn cls (some self) [] with
  | .error _ => ([], .idErr self)
  | .ok new_dn =>
    let entry := create_entry cls encode self
    let c := DirCall.add new_dn entry
    if conn c then
      let self1 : Inst := { self with dn := new_dn }
      ([.call c, .postSave true],
       .ok { self1 with saved_pk := pkValue cls self1 })
    else
      ([.call c], .dirErr self)

/-- The update branch of `Model.save` (taken when `self.dn` is
non-empty): re-fetch the original by `saved_pk`, diff it against the
current values; when the modlist is non-empty, rename first when
`build_dn()` differs from the current `dn` (the rename target RDN being
`build_rdn()` with no overrides), then `modify_s` at the (possibly
renamed) `dn`; finally refresh `saved_pk` and send `post_save` with
`created=False`. -/
def save_update (cls : ModelClass) (encode : String → Value → AttrVal)
    (conn : DirCall → Bool) (fetch : Value → Inst) (self : Inst) :
    List Event × Outcome :=
  let orig := fetch self.saved_pk
  let modlist := update_modlist cls encode orig self
  if modlist.isEmpty then
    ([.postSave false], .ok { self with saved_pk := pkValue cls self })
  else
    match build_dn cls (some self) [] with
    | .error _ => ([], .idErr self)
    | .ok new_dn =>
      if new_dn ≠ self.dn then
        match build_rdn cls (some self) [] with
        | .error _ => ([], .idErr self)
        | .ok rdn =>
          let c1 := DirCall.rename self.dn rdn
          if conn c1 then
            let self1 : Inst := { self with dn := new_dn }
            let c2 := DirCall.modify self1.dn modlist
            if conn c2 then
              ([.call c1, .call c2, .postSave false],
               .ok { self1 with saved_pk := pkValue cls self1 })
            else ([.call c1, .call c2], .dirErr self1)
          else ([.call c1], .dirErr self)
      else
        let c2 := DirCall.modify self.dn modlist
        if conn c2 then
          ([.call c2, .postSave false],
           .ok { self with saved_pk := pkValue cls self })
        else ([.call c2], .dirErr self)

/-- `Model.save`: create when `dn` is empty, update otherwise. -/
def save (cls : ModelClass) (encode : String → Value → AttrVal)
    (conn : DirCall → Bool) (fetch : Value → Inst) (self : Inst) :
    List Event × Outcome :=
  if self.dn = "" then save_create cls encode conn self
  else save_update cls encode conn fetch self

/-- `Model.delete`: `delete_s` at the current `dn`, then `post_delete`;
the in-memory instance is not touched. -/
def delete (conn : DirCall → Bool) (self : Inst) : List Event × Outcome :=
  let c := DirCall.del self.dn
  if conn c then ([.call c, .postDelete], .ok self)
  else ([.call c], .dirErr self)

/-- `Model.scoped`: a copy of the class with a different `base_dn`. -/
def «scoped» (cls : ModelClass) (base_dn : String) : ModelClass :=
  { cls with base_dn := base_dn }

/-- The RDN bits as the spec words them, for an instance call: for each
declared field with a directory-attribute mapping, in declaration
order, emit `attr=overrideValue` when overridden, else
`attr=currentFieldValue` when primary-key, else skip. -/
def specRdnBits (i : Inst) (keys : List (String × String))
    (fields : List FieldDesc) : List String :=
  fields.filterMap (fun f =>
    if dbColTruthy f.db_column then
      match keys.lookup f.name with
      | some v => some (colOf f ++ "=" ++ v)
      | none =>
        if f.primary_key then
          some (colOf f ++ "=" ++ valToStr (getattr i f.name))
        else none
    else none)

/-- The RDN bits emitted by a class-level call: only overridden mapped
fields contribute (no instance values are available). -/
def classBits (keys : List (String × String))
    (fields : List FieldDesc) : List String :=
  fields.filterMap (fun f =>
    if dbColTruthy f.db_column then
      (keys.lookup f.name).map (fun v => colOf f ++ "=" ++ v)
    else none)

/-- A small concrete model used to exercise the theorems: an unmapped
`dn` field, a mapped primary-key field `uid` and a mapped plain field
`cn`. -/
def exFields : List FieldDesc :=
  [⟨"dn", none, false⟩, ⟨"uid", some "uid", true⟩, ⟨"cn", some "cn", false⟩]

/-- The concrete model class over `exFields`. -/
def exCls : ModelClass :=
  ⟨exFields, "ou=people,dc=example,dc=com", ["top", "posixAccount"]⟩

/-- A concrete field codec: the wire form of a value is its string
rendering. -/
def exEncode : String → Value → AttrVal := fun _ v => AttrVal.single (valToStr v)

/-- A directory client on which every call succeeds. -/
def exConnTrue : DirCall → Bool := fun _ => true

/-- A concrete loaded instance. -/
def exAlice : Inst :=
  ⟨"uid=alice,ou=people,dc=example,dc=com", some "alice",
   [("uid", some "alice"), ("cn", some "Al")]⟩

/-- An update-path original whose `cn` attribute is absent. -/
def exCarolBase : Inst :=
  ⟨"uid=carol,ou=people,dc=example,dc=com", some "carol", [("uid", some "carol")]⟩

/-- The same entry with `cn` set to the empty string: changed, but both
old and new values are falsy. -/
def exCarolEmpty : Inst :=
  ⟨"uid=carol,ou=people,dc=example,dc=com", some "carol",
   [("uid", some "carol"), ("cn", some "")]⟩

/-- A point lookup returning `exCarolBase` for every key. -/
def exFetchCarol : Value → Inst := fun _ => exCarolBase

/-- `exAlice` after a truthy primary-key change (`uid` to `bob`). -/
def exBob : Inst :=
  ⟨"uid=alice,ou=people,dc=example,dc=com", some "alice",
   [("uid", some "bob"), ("cn", some "Al")]⟩

/-- A point lookup returning `exAlice` for every key. -/
def exFetchAlice : Value → Inst := fun _ => exAlice

/-- A fresh, not-yet-created record (`dn` empty). -/
def exCarolNew : Inst :=
  ⟨"", none, [("uid", some "carol"), ("cn", some "Carol")]⟩

/-- A directory client that fails exactly on rename calls. -/
def exConnNoRename : DirCall → Bool := fun c =>
  match c with
  | DirCall.rename _ _ => false
  | _ => true

/-- The primary-key value only depends on the field values, not on
`dn` or `saved_pk`. -/
theorem pkValue_update (cls : ModelClass) (i : Inst) (d : String) (sp : Value) :
    pkValue cls ⟨d, sp, i.vals⟩ = pkValue cls i := rfl

/-- On an instance, the `build_rdn` loop never raises and emits exactly
the bits the spec describes. -/
theorem rdn_bits_inst (i : Inst) (keys : List (String × String)) :
    ∀ fields, rdn_bits (some i) keys fields =
      Except.ok (specRdnBits i keys fields) := by
  intro fields
  induction fields with
  | nil => rfl
  | cons f rest ih =>
    simp only [rdn_bits, specRdnBits, List.filterMap_cons]
    cases hcol : dbColTruthy f.db_column
    · simpa [specRdnBits] using ih
    · cases hk : keys.lookup f.name
      · cases hpk : f.primary_key
        · simpa [specRdnBits] using ih
        · simp only [specRdnBits] at ih
          simp [ih]
      · simp only [specRdnBits] at ih
        simp [ih]

/-- When the overrides cover every mapped primary-key field, a
class-level `build_rdn` loop succeeds with the override-only bits. -/
theorem rdn_bits_class_covered (keys : List (String × String))
    (fields : List FieldDesc)
    (hcov : ∀ f ∈ fields, dbColTruthy f.db_column = true →
      f.primary_key = true → (keys.lookup f.name).isSome = true) :
    rdn_bits none keys fields = Except.ok (classBits keys fields) := by
  induction fields with
  | nil => rfl
  | cons f rest ih =>
    have hrest : ∀ g ∈ rest, dbColTruthy g.db_column = true →
        g.primary_key = true → (keys.lookup g.name).isSome = true :=
      fun g hg => hcov g (List.mem_cons_of_mem f hg)
    simp only [rdn_bits, classBits, List.filterMap_cons]
    cases hcol : dbColTruthy f.db_column
    · simpa [classBits] using ih hrest
    · cases hk : keys.lookup f.name
      · cases hpk : f.primary_key
        · simpa [classBits] using ih hrest
        · have := hcov f (List.mem_cons_self f rest) hcol hpk
          rw [hk] at this
          simp at this
      · simp [ih hrest, classBits]

/-- When some mapped primary-key field is not covered by the overrides,
a class-level `build_rdn` loop raises the missing-key error. -/
theorem rdn_bits_class_missing (keys : List (String × String))
    (fields : List FieldDesc)
    (hmiss : ∃ f ∈ fields, dbColTruthy f.db_column = true ∧
      f.primary_key = true ∧ keys.lookup f.name = none) :
    rdn_bits none keys fields = Except.error RdnError.missingKey := by
  induction fields with
  | nil => simp at hmiss
  | cons f rest ih =>
    obtain ⟨g, hg, hgcol, hgpk, hgk⟩ := hmiss
    rcases List.mem_cons.mp hg with rfl | hg
    · simp [rdn_bits, hgcol, hgk, hgpk]
    · have herr := ih ⟨g, hg, hgcol, hgpk, hgk⟩
      simp only [rdn_bits]
      cases hcol : dbColTruthy f.db_column
      · simpa using herr
      · cases hk : keys.lookup f.name
        · cases hpk : f.primary_key
          · simpa using herr
          · simp
        · simp [herr]

/-- Under covering overrides the spec's instance bits and the
class-level bits coincide. -/
theorem specBits_eq_classBits (i : Inst) (keys : List (String × String))
    (fields : List FieldDesc)
    (hcov : ∀ f ∈ fields, dbColTruthy f.db_column = true →
      f.primary_key = true → (keys.lookup f.name).isSome = true) :
    specRdnBits i keys fields = classBits keys fields := by
  induction fields with
  | nil => rfl
  | cons f rest ih =>
    have hrest : ∀ g ∈ rest, dbColTruthy g.db_column = true →
        g.primary_key = true → (keys.lookup g.name).isSome = true :=
      fun g hg => hcov g (List.mem_cons_of_mem f hg)
    simp only [specRdnBits, classBits, List.filterMap_cons]
    cases hcol : dbColTruthy f.db_column
    · simpa [specRdnBits, classBits] using ih hrest
    · cases hk : keys.lookup f.name
      · cases hpk : f.primary_key
        · simpa [specRdnBits, classBits] using ih hrest
        · have := hcov f (List.mem_cons_self f rest) hcol hpk
          rw [hk] at this
          simp at this
      · simpa [specRdnBits, classBits] using ih hrest

/-- C1: the update-path diff queues, per mapped field, a REPLACE with
the encoded new value when the value changed and the new value is
non-empty, a DELETE (with no value) when the value changed to
empty/absent from a non-empty old value, and nothing for an attribute
all of whose fields are unchanged. -/
theorem c1_update_modlist_diff (cls : ModelClass)
    (encode : String → Value → AttrVal) (orig self : Inst) (f : FieldDesc)
    (hf : f ∈ cls.fields) (hcol : dbColTruthy f.db_column = true) :
    (getattr orig f.name ≠ getattr self f.name →
      truthy (getattr self f.name) = true →
      (⟨ModType.replace, colOf f, some (encode (colOf f) (getattr self f.name))⟩ : Mod)
        ∈ update_modlist cls encode orig self)
    ∧ (getattr orig f.name ≠ getattr self f.name →
        truthy (getattr self f.name) = false →
        truthy (getattr orig f.name) = true →
      (⟨ModType.delete, colOf f, none⟩ : Mod) ∈ update_modlist cls encode orig self)
    ∧ ((∀ g ∈ cls.fields, colOf g = colOf f →
          getattr orig g.name = getattr self g.name) →
      ∀ m ∈ update_modlist cls encode orig self, m.attr ≠ colOf f) := by
  refine ⟨?_, ?_, ?_⟩
  · intro hne htr
    unfold update_modlist
    exact List.mem_filterMap.mpr ⟨f, hf, by simp [hcol, hne, htr]⟩
  · intro hne hnf hot
    unfold update_modlist
    exact List.mem_filterMap.mpr ⟨f, hf, by simp [hcol, hne, hnf, hot]⟩
  · intro hall m hm hattr
    unfold update_modlist at hm
    obtain ⟨g, hg, hgm⟩ := List.mem_filterMap.mp hm
    cases hgcol : dbColTruthy g.db_column
    · simp [hgcol] at hgm
    · by_cases hgeq : getattr orig g.name = getattr self g.name
      · simp [hgcol, hgeq] at hgm
      · have hgattr : m.attr = colOf g := by
          cases htn : truthy (getattr self g.name) <;>
            cases hto : truthy (getattr orig g.name) <;>
            simp [hgcol, hgeq, htn, hto] at hgm <;>
            simp [← hgm]
        exact hgeq (hall g hg (hgattr.symm.trans hattr))

/-- C1 witness: changing `uid` from `alice` to the non-empty `bob`
queues a REPLACE of the `uid` attribute with the encoded new value. -/
theorem c1_update_modlist_diff_witness :
    (⟨ModType.replace, "uid", some (AttrVal.single "bob")⟩ : Mod)
      ∈ update_modlist exCls exEncode exAlice exBob :=
  (c1_update_modlist_diff exCls exEncode exAlice exBob
      ⟨"uid", some "uid", true⟩ (by decide) (by decide)).1 (by decide) (by decide)

/-- C10: when every mapped field is either unchanged or changed between
two empty/absent values, the diff queues nothing at all, and an
update-mode save issues no modify or rename call. -/
theorem c10_both_empty_change_dropped (cls : ModelClass)
    (encode : String → Value → AttrVal) (conn : DirCall → Bool)
    (fetch : Value → Inst) (orig self : Inst)
    (hfetch : fetch self.saved_pk = orig)
    (h : ∀ f ∈ cls.fields, dbColTruthy f.db_column = true →
      getattr orig f.name = getattr self f.name ∨
        (truthy (getattr orig f.name) = false ∧
         truthy (getattr self f.name) = false)) :
    update_modlist cls encode orig self = []
    ∧ (self.dn ≠ "" →
        save cls encode conn fetch self =
          ([Event.postSave false],
           Outcome.ok { self with saved_pk := pkValue cls self })) := by
  have hml : update_modlist cls encode orig self = [] := by
    unfold update_modlist
    apply List.filterMap_eq_nil_iff.mpr
    intro f hf
    cases hcol : dbColTruthy f.db_column
    · simp [hcol]
    · rcases h f hf hcol with heq | ⟨hto, htn⟩
      · simp [hcol, heq]
      · by_cases hne : getattr orig f.name = getattr self f.name
        · simp [hcol, hne]
        · simp [hcol, hne, hto, htn]
  exact ⟨hml, fun h0 => by simp [save, h0, save_update, hfetch, hml]⟩

/-- C10 witness: `cn` changing from absent to the empty string queues
nothing, and the save is a directory no-op. -/
theorem c10_both_empty_change_dropped_witness :
    save exCls exEncode exConnTrue exFetchCarol exCarolEmpty =
      ([Event.postSave false],
       Outcome.ok { exCarolEmpty with saved_pk := pkValue exCls exCarolEmpty }) :=
  (c10_both_empty_change_dropped exCls exEncode exConnTrue exFetchCarol
      exCarolBase exCarolEmpty (by decide) (by decide)).2 (by decide)

/-- C5: on an instance, `build_rdn` walks the declared fields in order,
skips unmapped fields, emits `attr=overrideValue` for overridden mapped
fields and `attr=currentFieldValue` for the primary-key field, joins
the emitted pairs with `+` (raising only when no pair was emitted), and
is deterministic: repeated calls on an unchanged instance agree. -/
theorem c5_build_rdn_spec (cls : ModelClass) (i : Inst)
    (keys : List (String × String)) :
    (build_rdn cls (some i) keys =
      if specRdnBits i keys cls.fields = [] then Except.error RdnError.emptyBits
      else Except.ok (String.intercalate "+" (specRdnBits i keys cls.fields)))
    ∧ build_rdn cls (some i) keys = build_rdn cls (some i) keys := by
  refine ⟨?_, rfl⟩
  rw [build_rdn, rdn_bits_inst]
  cases h : specRdnBits i keys cls.fields <;> simp

/-- C6: a class-level `build_rdn` fails in exactly two situations —
some mapped primary-key field is not covered by the overrides
(missing-key error), or the emitted bit list is empty (empty-bits
error); with covering overrides it behaves exactly as an instance call
would, succeeding on the override-derived bits when they are
non-empty. -/
theorem c6_build_rdn_class_level (cls : ModelClass)
    (keys : List (String × String)) :
    ((∀ f ∈ cls.fields, dbColTruthy f.db_column = true → f.primary_key = true →
        (keys.lookup f.name).isSome = true) →
      (∀ i : Inst, build_rdn cls none keys = build_rdn cls (some i) keys)
      ∧ (classBits keys cls.fields ≠ [] →
          build_rdn cls none keys =
            Except.ok (String.intercalate "+" (classBits keys cls.fields)))
      ∧ (classBits keys cls.fields = [] →
          build_rdn cls none keys = Except.error RdnError.emptyBits))
    ∧ ((∃ f ∈ cls.fields, dbColTruthy f.db_column = true ∧ f.primary_key = true ∧
          keys.lookup f.name = none) →
        build_rdn cls none keys = Except.error RdnError.missingKey) := by
  constructor
  · intro hcov
    refine ⟨?_, ?_, ?_⟩
    · intro i
      rw [build_rdn, build_rdn, rdn_bits_class_covered keys cls.fields hcov,
          rdn_bits_inst, specBits_eq_classBits i keys cls.fields hcov]
    · intro hne
      rw [build_rdn, rdn_bits_class_covered keys cls.fields hcov]
      cases h : classBits keys cls.fields
      · exact absurd h hne
      · simp
    · intro he
      rw [build_rdn, rdn_bits_class_covered keys cls.fields hcov, he]
      simp
  · intro hmiss
    rw [build_rdn, rdn_bits_class_missing keys cls.fields hmiss]

/-- C6 witness: with the override `uid=bob`, the class-level call
agrees with an instance call. -/
theorem c6_build_rdn_class_level_witness :
    build_rdn exCls none [("uid", "bob")] =
      build_rdn exCls (some exAlice) [("uid", "bob")] :=
  ((c6_build_rdn_class_level exCls [("uid", "bob")]).1 (by decide)).1 exAlice

/-- C3: a save on a record with empty `dn` issues exactly one add call,
at `build_rdn() ++ "," ++ base_dn` (that is, `build_dn()`), whose
attribute list opens with `objectClass` mapped to the object classes
and contains every mapped field with a truthy value, codec-encoded; on
success `dn` is set to that address, `saved_pk` is refreshed and
post-save observers are notified with `created = true`. -/
theorem c3_create_path (cls : ModelClass) (encode : String → Value → AttrVal)
    (conn : DirCall → Bool) (fetch : Value → Inst) (self : Inst) (rdn : String)
    (h0 : self.dn = "")
    (hr : build_rdn cls (some self) [] = Except.ok rdn)
    (hc : conn (DirCall.add (rdn ++ "," ++ cls.base_dn)
      (create_entry cls encode self)) = true) :
    save cls encode conn fetch self =
      ([Event.call (DirCall.add (rdn ++ "," ++ cls.base_dn)
          (create_entry cls encode self)),
        Event.postSave true],
       Outcome.ok
         { self with
             dn := rdn ++ "," ++ cls.base_dn, saved_pk := pkValue cls self })
    ∧ (create_entry cls encode self).head? =
        some ("objectClass", AttrVal.multi cls.object_classes)
    ∧ ∀ f ∈ cls.fields, dbColTruthy f.db_column = true →
        truthy (getattr self f.name) = true →
        (colOf f, encode (colOf f) (getattr self f.name))
          ∈ create_entry cls encode self := by
  refine ⟨?_, rfl, ?_⟩
  · have hdn : build_dn cls (some self) [] =
        Except.ok (rdn ++ "," ++ cls.base_dn) := by
      rw [build_dn, hr]
    simp [save, h0, save_create, hdn, hc, pkValue_update]
  · intro f hf hcol htr
    unfold create_entry
    exact List.mem_cons_of_mem _
      (List.mem_filterMap.mpr ⟨f, hf, by simp [hcol, htr]⟩)

/-- C3 witness: saving a fresh `uid=carol` record issues the one add
call at the predicted DN and updates the in-memory record. -/
theorem c3_create_path_witness :
    save exCls exEncode exConnTrue exFetchAlice exCarolNew =
      ([Event.call (DirCall.add ("uid=carol," ++ exCls.base_dn)
          (create_entry exCls exEncode exCarolNew)),
        Event.postSave true],
       Outcome.ok
         { exCarolNew with
             dn := "uid=carol," ++ exCls.base_dn,
             saved_pk := pkValue exCls exCarolNew }) :=
  (c3_create_path exCls exEncode exConnTrue exFetchAlice exCarolNew
      "uid=carol" rfl rfl rfl).1

/-- C2: in update mode with a non-empty modlist and a recomputed DN
differing from the current one, the rename call (whose target RDN is
`build_rdn()` with no overrides) is issued strictly before the modify
call, and the modify call targets the new, post-rename DN. -/
theorem c2_rename_before_modify (cls : ModelClass)
    (encode : String → Value → AttrVal) (conn : DirCall → Bool)
    (fetch : Value → Inst) (self : Inst) (rdn : String)
    (h0 : self.dn ≠ "")
    (hml : update_modlist cls encode (fetch self.saved_pk) self ≠ [])
    (hr : build_rdn cls (some self) [] = Except.ok rdn)
    (hne : rdn ++ "," ++ cls.base_dn ≠ self.dn)
    (hc1 : conn (DirCall.rename self.dn rdn) = true) :
    (save cls encode conn fetch self).1.take 2 =
      [Event.call (DirCall.rename self.dn rdn),
       Event.call (DirCall.modify (rdn ++ "," ++ cls.base_dn)
         (update_modlist cls encode (fetch self.saved_pk) self))] := by
  have hdn : build_dn cls (some self) [] =
      Except.ok (rdn ++ "," ++ cls.base_dn) := by
    rw [build_dn, hr]
  have hemp : (update_modlist cls encode (fetch self.saved_pk) self).isEmpty
      = false := by
    cases h : update_modlist cls encode (fetch self.saved_pk) self
    · exact absurd h hml
    · rfl
  cases hc2 : conn (DirCall.modify (rdn ++ "," ++ cls.base_dn)
      (update_modlist cls encode (fetch self.saved_pk) self)) <;>
    simp [save, h0, save_update, hemp, hdn, hr, hne, hc1, hc2]

/-- C2 witness: changing `uid` (the key) and diffing against the
loaded `exAlice` yields the rename first, then the modify at the
post-rename DN. -/
theorem c2_rename_before_modify_witness :
    (save exCls exEncode exConnTrue exFetchAlice exBob).1.take 2 =
      [Event.call (DirCall.rename exBob.dn "uid=bob"),
       Event.call (DirCall.modify ("uid=bob," ++ exCls.base_dn)
         (update_modlist exCls exEncode (exFetchAlice exBob.saved_pk) exBob))] :=
  c2_rename_before_modify exCls exEncode exConnTrue exFetchAlice exBob
    "uid=bob" (by decide) (by decide) rfl (by decide) rfl

/-- C4: an update-mode save with an empty modlist issues no directory
call at all, and every successful save path refreshes `saved_pk` to the
current primary-key value and notifies post-save observers. -/
theorem c4_noop_update_saved_pk (cls : ModelClass)
    (encode : String → Value → AttrVal) (conn : DirCall → Bool)
    (fetch : Value → Inst) (self : Inst) :
    (self.dn ≠ "" →
      update_modlist cls encode (fetch self.saved_pk) self = [] →
      save cls encode conn fetch self =
        ([Event.postSave false],
         Outcome.ok { self with saved_pk := pkValue cls self }))
    ∧ (∀ ev s, save cls encode conn fetch self = (ev, Outcome.ok s) →
        s.saved_pk = pkValue cls s ∧ ∃ b, Event.postSave b ∈ ev) := by
  constructor
  · intro h0 hml
    simp [save, h0, save_update, hml]
  · intro ev s h
    unfold save save_create save_update at h
    dsimp only at h
    repeat' split at h
    all_goals simp only [Prod.mk.injEq] at h
    all_goals try simp at h
    all_goals
      obtain ⟨hev, hs⟩ := h
      subst hs
      subst hev
      refine ⟨by simp [pkValue_update], ?_⟩
      first
        | (refine ⟨true, ?_⟩; simp; done)
        | (refine ⟨false, ?_⟩; simp; done)

/-- C4 witness: a no-change save of the loaded `exAlice` issues no
directory call and still refreshes `saved_pk`. -/
theorem c4_noop_update_saved_pk_witness :
    save exCls exEncode exConnTrue exFetchAlice exAlice =
      ([Event.postSave false],
       Outcome.ok { exAlice with saved_pk := pkValue exCls exAlice }) :=
  (c4_noop_update_saved_pk exCls exEncode exConnTrue exFetchAlice exAlice).1
    (by decide) (by decide)

/-- C7: a failing add or rename call propagates as a directory error
with the in-memory `dn` (and everything else) still in its pre-call
state, so a retried save attempts the same call again; and no failed
save path ever alters the field values or `saved_pk`. -/
theorem c7_error_propagation (cls : ModelClass)
    (encode : String → Value → AttrVal) (conn : DirCall → Bool)
    (fetch : Value → Inst) (self : Inst) (rdn : String) :
    (self.dn = "" → build_rdn cls (some self) [] = Except.ok rdn →
      conn (DirCall.add (rdn ++ "," ++ cls.base_dn)
        (create_entry cls encode self)) = false →
      save cls encode conn fetch self =
        ([Event.call (DirCall.add (rdn ++ "," ++ cls.base_dn)
            (create_entry cls encode self))], Outcome.dirErr self))
    ∧ (self.dn ≠ "" →
        update_modlist cls encode (fetch self.saved_pk) self ≠ [] →
        build_rdn cls (some self) [] = Except.ok rdn →
        rdn ++ "," ++ cls.base_dn ≠ self.dn →
        conn (DirCall.rename self.dn rdn) = false →
        save cls encode conn fetch self =
          ([Event.call (DirCall.rename self.dn rdn)], Outcome.dirErr self))
    ∧ (∀ ev s, save cls encode conn fetch self = (ev, Outcome.dirErr s) →
        s.vals = self.vals ∧ s.saved_pk = self.saved_pk) := by
  refine ⟨?_, ?_, ?_⟩
  · intro h0 hr hc
    have hdn : build_dn cls (some self) [] =
        Except.ok (rdn ++ "," ++ cls.base_dn) := by
      rw [build_dn, hr]
    simp [save, h0, save_create, hdn, hc]
  · intro h0 hml hr hne hc1
    have hdn : build_dn cls (some self) [] =
        Except.ok (rdn ++ "," ++ cls.base_dn) := by
      rw [build_dn, hr]
    have hemp : (update_modlist cls encode (fetch self.saved_pk) self).isEmpty
        = false := by
      cases h : update_modlist cls encode (fetch self.saved_pk) self
      · exact absurd h hml
      · rfl
    simp [save, h0, save_update, hemp, hdn, hr, hne, hc1]
  · intro ev s h
    unfold save save_create save_update at h
    dsimp only at h
    repeat' split at h
    all_goals simp only [Prod.mk.injEq] at h
    all_goals try simp at h
    all_goals
      obtain ⟨hev, hs⟩ := h
      subst hs
      exact ⟨rfl, rfl⟩

/-- C7 witness: against a client that fails renames, saving the
key-changed `exBob` stops at the rename with `dn` still the old one. -/
theorem c7_error_propagation_witness :
    save exCls exEncode exConnNoRename exFetchAlice exBob =
      ([Event.call (DirCall.rename exBob.dn "uid=bob")], Outcome.dirErr exBob) :=
  (c7_error_propagation exCls exEncode exConnNoRename exFetchAlice exBob
      "uid=bob").2.1 (by decide) (by decide) rfl (by decide) rfl

/-- C8: `delete` issues exactly one directory delete call, at the
current `dn`, then notifies post-delete observers; the in-memory
record (its `dn`, `saved_pk` and field values) is returned unchanged. -/
theorem c8_delete_path (conn : DirCall → Bool) (self : Inst)
    (h : conn (DirCall.del self.dn) = true) :
    delete conn self =
      ([Event.call (DirCall.del self.dn), Event.postDelete], Outcome.ok self) := by
  simp [delete, h]

/-- C8 witness: deleting the loaded `exAlice`. -/
theorem c8_delete_path_witness :
    delete exConnTrue exAlice =
      ([Event.call (DirCall.del exAlice.dn), Event.postDelete],
       Outcome.ok exAlice) :=
  c8_delete_path exConnTrue exAlice rfl

/-- C9: `scoped` yields a class identical to the original except that
`base_dn` is replaced, so its `build_dn` appends the new base DN to the
unchanged `build_rdn`; the original class's `base_dn` and `build_dn`
are untouched, and `scoped` is a pure derivation performing no
directory call. -/
theorem c9_scoped_variant (cls : ModelClass) (b : String) (inst : Option Inst)
    (keys : List (String × String)) :
    build_rdn («scoped» cls b) inst keys = build_rdn cls inst keys
    ∧ build_dn («scoped» cls b) inst keys =
        (match build_rdn cls inst keys with
         | Except.error e => Except.error e
         | Except.ok rdn => Except.ok (rdn ++ "," ++ b))
    ∧ («scoped» cls b).base_dn = b
    ∧ («scoped» cls b).fields = cls.fields
    ∧ («scoped» cls b).object_classes = cls.object_classes
    ∧ build_dn cls inst keys =
        (match build_rdn cls inst keys with
         | Except.error e => Except.error e
         | Except.ok rdn => Except.ok (rdn ++ "," ++ cls.base_dn)) :=
  ⟨rfl, rfl, rfl, rfl, rfl, rfl⟩

end Ldapdb
